import Mathlib

/-!
Verification development for the pycsob payment-gateway client SDK.

The development shallowly embeds the signing/verification core of the SDK:
the canonical message builder (mk_msg_for_sign), the RSA signer/verifier
(sign, verify), payload construction (mk_payload), response validation
(validate_response) and the gateway-return path (gateway_return).

Modelling conventions:
* Python values appearing in payloads and decoded JSON bodies are the
  inductive type Val; ordered mappings (OrderedDict / decoded JSON objects)
  are association lists with insertion order significant.
* The external crypto library (SHA-1 digest plus PKCS#1 v1.5 encoding of the
  digest) is abstracted as an explicit parameter hashFn from message bytes to
  the encoded-message number; the RSA key operations themselves are modular
  exponentiation over Nat.  The base64 text codec for signatures is collapsed
  to decimal rendering/parsing, which is likewise an injective text codec.
* Machine-level byte strings are lists of Nat byte values.
-/

namespace Pycsob

/-- Values appearing in gateway payloads and decoded JSON bodies: Python
None, str, int, bool, and lists of ordered mappings (the shape of the cart
field and of the extensions list). -/
inductive Val where
  | vNone
  | vStr (s : String)
  | vInt (n : Int)
  | vBool (b : Bool)
  | vList (items : List (List (String × Val)))

/-- An ordered mapping from field names to values (OrderedDict / decoded
JSON object), with insertion order significant. -/
abbrev Payload := List (String × Val)

/-- Modelled from the spec: the configuration constant EMPTY_VALUES of the
conf module (which is not under src); the spec describes the empty-value set
as null/none, the empty string and the empty sequence. -/
def EMPTY_VALUES : List Val := [Val.vNone, Val.vStr "", Val.vList []]

/-- Python `v is None` test used by the dict comprehension in
mk_msg_for_sign. -/
def isNone : Val → Bool
  | .vNone => true
  | _ => false

/-- Computable membership test for `v in conf.EMPTY_VALUES`; the lemma
inEmptyValues_iff ties it to list membership in EMPTY_VALUES.  (Python
membership compares with ==; none of the three empty values is ==-equal to
any value of another shape, so the test is structural.) -/
def inEmptyValues : Val → Bool
  | .vNone => true
  | .vStr s => s == ""
  | .vList items => items.isEmpty
  | _ => false

/-- Python str() of a value.  Scalars render naturally; a list renders as the
repr of a list of OrderedDicts.  Values nested inside a list are scalars in
this protocol (spec section 3: cart items map names to scalars), so the inner
repr handles scalars; string repr is modelled without escape sequences. -/
def pyReprScalar : Val → String
  | .vNone => "None"
  | .vStr s => "'" ++ s ++ "'"
  | .vInt n => toString n
  | .vBool b => if b then "True" else "False"
  | .vList _ => "[...]"

/-- Python repr of one OrderedDict, as rendered inside str() of a list. -/
def pyReprDict (d : Payload) : String :=
  "OrderedDict([" ++
    String.intercalate ", "
      (d.map fun kv => "(" ++ pyReprScalar (Val.vStr kv.1) ++ ", " ++ pyReprScalar kv.2 ++ ")")
  ++ "])"

/-- Python str() of a value. -/
def pyStr : Val → String
  | .vNone => "None"
  | .vStr s => s
  | .vInt n => toString n
  | .vBool b => if b then "True" else "False"
  | .vList items => "[" ++ String.intercalate ", " (items.map pyReprDict) ++ "]"

/-- Lean model of str_or_jsbool (utils.py lines 61-64): booleans render as
lowercase true/false, any other value by Python str(). -/
def str_or_jsbool (v : Val) : String :=
  match v with
  | .vBool b => if b then "true" else "false"
  | v => pyStr v

/-- UTF-8 encoding of one character as byte values. -/
def utf8EncodeChar (c : Char) : List Nat :=
  let n := c.toNat
  if n < 0x80 then [n]
  else if n < 0x800 then [0xC0 ||| (n >>> 6), 0x80 ||| (n &&& 0x3F)]
  else if n < 0x10000 then
    [0xE0 ||| (n >>> 12), 0x80 ||| ((n >>> 6) &&& 0x3F), 0x80 ||| (n &&& 0x3F)]
  else
    [0xF0 ||| (n >>> 18), 0x80 ||| ((n >>> 12) &&& 0x3F),
     0x80 ||| ((n >>> 6) &&& 0x3F), 0x80 ||| (n &&& 0x3F)]

/-- UTF-8 encoding of a string as a list of byte values (model of the
msg.encode call in mk_msg_for_sign). -/
def utf8Encode (s : String) : List Nat :=
  (s.data.map utf8EncodeChar).flatten

/-- First-match association-list lookup: Python d[k] / `k in d` on a dict
with unique keys. -/
def lookupVal (k : String) : Payload → Option Val
  | [] => none
  | kv :: rest => if kv.1 = k then some kv.2 else lookupVal k rest

/-- Removal of a key, modelling dict.pop(k). -/
def eraseKey (k : String) : Payload → Payload
  | [] => []
  | kv :: rest => if kv.1 = k then eraseKey k rest else kv :: eraseKey k rest

/-- Flattened cart values: the cart_msg list accumulated by
`for one in payload[cart]: cart_msg.extend(one.values())`. -/
def cartValues (items : List Payload) : List Val :=
  (items.map (fun d => d.map Prod.snd)).flatten

/-- The single string a non-empty cart is replaced by in the canonical
message. -/
def cartSegment (items : List Payload) : String :=
  String.intercalate "|" ((cartValues items).map str_or_jsbool)

/-- Lean model of mk_msg_for_sign (utils.py lines 37-45).  The dict
comprehension drops None-valued fields; then, if a cart field is present and
its value is not in EMPTY_VALUES, that value is replaced by the pipe-joined
stringification of the flattened cart values; finally all values are
stringified via str_or_jsbool, pipe-joined and UTF-8 encoded.  A cart value
that is neither a list nor in EMPTY_VALUES makes CPython raise while
iterating; the model leaves such a value to the plain stringify fallthrough
(no claim exercises that path). -/
def mk_msg_for_sign (payload : Payload) : List Nat :=
  let p : Payload := payload.filter (fun kv => !(isNone kv.2))
  let p2 : Payload :=
    match lookupVal "cart" p with
    | some (Val.vList items) =>
        if inEmptyValues (Val.vList items) then p
        else p.map (fun kv : String × Val =>
          if kv.1 = "cart" then ("cart", Val.vStr (cartSegment items)) else kv)
    | _ => p
  utf8Encode (String.intercalate "|" (p2.map (fun kv : String × Val => str_or_jsbool kv.2)))

/-- An RSA key: modulus, public exponent, private exponent.  A key loaded
from PEM text carries all the numbers; sign uses (n, d), verify uses
(n, e). -/
structure RSAKey where
  n : Nat
  e : Nat
  d : Nat

/-- Modular exponentiation, the RSA primitive. -/
def powMod (b ex n : Nat) : Nat := b ^ ex % n

/-- A valid RSA key pair: same modulus, and the private-then-public
exponentiation round-trips every message below the modulus. -/
def ValidKeyPair (priv pub : RSAKey) : Prop :=
  pub.n = priv.n ∧ ∀ m, m < priv.n → powMod (powMod m priv.d priv.n) pub.e pub.n = m

/-- Lean model of sign (utils.py lines 22-26).  hashFn abstracts the fixed
external digest step (SHA-1 plus the PKCS#1 v1.5 encoding of the digest into
the encoded-message number); the private-key operation is modular
exponentiation.  The base64 text rendering of the signature is applied where
the signature is embedded into a payload (see mk_payload). -/
def sign (hashFn : List Nat → Nat) (payload : Payload) (key : RSAKey) : Nat :=
  powMod (hashFn (mk_msg_for_sign payload)) key.d key.n

/-- Lean model of verify (utils.py lines 29-34): recompute the canonical
message, apply the public key to the signature and compare with the encoded
digest of the message. -/
def verify (hashFn : List Nat → Nat) (payload : Payload) (signature : Nat)
    (pubkey : RSAKey) : Bool :=
  powMod signature pubkey.e pubkey.n == hashFn (mk_msg_for_sign payload)

/-- OrderedDict assignment d[k] = v: replace the value in place when the key
exists, append the pair otherwise. -/
def odInsert (d : Payload) (k : String) (v : Val) : Payload :=
  if d.any (fun kv => kv.1 == k) then
    d.map (fun kv => if kv.1 = k then (kv.1, v) else kv)
  else d ++ [(k, v)]

/-- OrderedDict built from a list of pairs: left fold of assignments. -/
def odFromPairs (pairs : List (String × Val)) : Payload :=
  pairs.foldl (fun d kv => odInsert d kv.1 kv.2) []

/-- Textual rendering of a signature for embedding in a payload; stands for
b64encode(...).decode() with the codec collapsed to decimal digits. -/
def sigToText (s : Nat) : String := toString s

/-- Value of a decimal digit character. -/
def decDigit? (c : Char) : Option Nat :=
  if 48 ≤ c.toNat ∧ c.toNat ≤ 57 then some (c.toNat - 48) else none

/-- Accumulating decimal parse over a character list. -/
def parseDecCore : List Char → Nat → Option Nat
  | [], acc => some acc
  | c :: cs, acc =>
    match decDigit? c with
    | some d => parseDecCore cs (acc * 10 + d)
    | none => none

/-- Decimal parse of a string, none on the empty string or a non-digit. -/
def strToNat (s : String) : Option Nat :=
  match s.data with
  | [] => none
  | l => parseDecCore l 0

/-- Integer parse of a string: an optional leading minus sign then decimal
digits (Python int() also strips whitespace and accepts a plus sign; no
caller sends those forms). -/
def strToInt (s : String) : Option Int :=
  match s.data with
  | [] => none
  | c :: cs =>
    if c = '-' then
      match cs with
      | [] => none
      | _ => (parseDecCore cs 0).map (fun n => -(n : Int))
    else (parseDecCore s.data 0).map (fun n => (n : Int))

/-- Decoding of a transmitted signature value back to the number the RSA
layer checks; stands for b64decode.  A non-numeric or non-string value
decodes to 0 (the real code fails inside base64/RSA and the verifier
returns false for it; no claim exercises that path). -/
def valToSig : Val → Nat
  | .vStr s => (strToNat s).getD 0
  | _ => 0

/-- Lean model of mk_payload (utils.py lines 48-51): keep the pairs whose
value is not in EMPTY_VALUES, build an OrderedDict from them, then assign
the signature computed over that dict. -/
def mk_payload (hashFn : List Nat → Nat) (key : RSAKey)
    (pairs : List (String × Val)) : Payload :=
  let payload := odFromPairs (pairs.filter (fun kv => !(inEmptyValues kv.2)))
  odInsert payload "signature" (Val.vStr (sigToText (sign hashFn payload key)))

/-- Modelled from the spec: the error kinds of the exceptions module (which
is not under src), plus the undeclared Python exceptions that can escape
validation.  Each CsobVerifyError constructor records which fixed message the
source raises it with. -/
inductive PyError where
  | csobBase              -- CsobBaseException wrapping a transport/HTTP failure
  | csobJSONDecode        -- CsobJSONDecodeError: Cannot decode JSON in response
  | csobVerifyResponse    -- CsobVerifyError: Cannot verify response
  | csobVerifyExtension   -- CsobVerifyError: Cannot verify masked card extension response
  | csobVerifyGatewayReturn -- CsobVerifyError: Unverified gateway return data
  | keyError (k : String) -- Python KeyError
  | valueError            -- Python ValueError/TypeError from int()
  | typeError             -- Python TypeError iterating a non-list extensions value
deriving DecidableEq, Repr

/-- An HTTP response as validate_response sees it: whether
raise_for_status() raises (an error HTTP status), and the decoded JSON
object, with none modelling a body on which response.json() raises
JSONDecodeError.  A connection-level failure never produces a response at
all; it surfaces through adapter_send below. -/
structure HttpResponse where
  statusError : Bool
  jsonBody : Option Payload

/-- The result validate_response attaches to the response object: the
verified payload and the verified extensions list. -/
structure ValidatedResponse where
  payload : Payload
  extensions : List Payload

/-- Modelled from the spec: the fixed ordered recognized-key list
RESPONSE_KEYS of the conf module (which is not under src).  The spec names
payment id, timestamp, result code, result message, payment status, auth
code; customerId and merchantData are the remaining keys the client call
sites in src send and read back. -/
def RESPONSE_KEYS : List String :=
  ["payId", "customerId", "dttm", "resultCode", "resultMessage",
   "paymentStatus", "authCode", "merchantData"]

/-- The key-copy loop `for k in keys: if k in data: payload[k] = data[k]`
shared by validate_response and the extension loop. -/
def pickKeys (keys : List String) (data : Payload) : Payload :=
  keys.filterMap (fun k => (lookupVal k data).map (fun v => (k, v)))

/-- The fixed extension sub-object field order (utils.py line 94). -/
def maskclnrp_keys : List String :=
  ["extension", "dttm", "maskedCln", "expiration", "longMaskedCln"]

/-- Python `one[extension] in (maskClnRP, maskCln)`. -/
def isMaskKind : Val → Bool
  | .vStr s => s == "maskClnRP" || s == "maskCln"
  | _ => false

/-- Lean model of the extension loop of validate_response (utils.py lines
93-104): for each entry of recognized kind, build the fixed 5-field
sub-object, verify its own signature; append on success, raise
CsobVerifyError on failure; skip entries of unrecognized kind.  A missing
extension or signature key raises KeyError. -/
def processExtensions (hashFn : List Nat → Nat) (key : RSAKey) :
    List Payload → Except PyError (List Payload)
  | [] => .ok []
  | one :: rest =>
    match lookupVal "extension" one with
    | none => .error (.keyError "extension")
    | some t =>
      if isMaskKind t then
        let o := pickKeys maskclnrp_keys one
        match lookupVal "signature" one with
        | none => .error (.keyError "signature")
        | some sv =>
          if verify hashFn o (valToSig sv) key then
            (processExtensions hashFn key rest).map (fun exts => o :: exts)
          else .error .csobVerifyExtension
      else processExtensions hashFn key rest

/-- Lean model of validate_response (utils.py lines 71-107).
raise_for_status runs first, so an HTTP error status wins over an
undecodable body; then the body is decoded; the signature popped (KeyError
when absent); the recognized keys are copied in RESPONSE_KEYS order; the
primary signature is verified; finally, when an extensions key is present,
the extension loop runs.  An extensions value that is not a list makes
CPython raise while iterating, modelled as typeError. -/
def validate_response (hashFn : List Nat → Nat) (response : HttpResponse)
    (key : RSAKey) : Except PyError ValidatedResponse :=
  if response.statusError then .error .csobBase
  else
    match response.jsonBody with
    | none => .error .csobJSONDecode
    | some body =>
      match lookupVal "signature" body with
      | none => .error (.keyError "signature")
      | some sigVal =>
        let data := eraseKey "signature" body
        let payload := pickKeys RESPONSE_KEYS data
        if verify hashFn payload (valToSig sigVal) key then
          match lookupVal "extensions" data with
          | none => .ok ⟨payload, []⟩
          | some (Val.vList entries) =>
              (processExtensions hashFn key entries).map
                (fun exts => ⟨payload, exts⟩)
          | some _ => .error .typeError
        else .error .csobVerifyResponse

/-- Lean model of HTTPAdapter.send (client.py lines 28-33): a
connection-level RequestException from the transport is caught and re-raised
as CsobBaseException; a delivered response passes through untouched. -/
def adapter_send (result : Except Unit HttpResponse) :
    Except PyError HttpResponse :=
  match result with
  | .error _ => .error .csobBase
  | .ok r => .ok r

/-- Python int(v): ints pass through, booleans coerce, strings parse with an
optional sign; anything else is a TypeError and an unparsable string a
ValueError, both modelled as none. -/
def pyInt : Val → Option Int
  | .vInt n => some n
  | .vBool b => some (if b then 1 else 0)
  | .vStr s => strToInt s
  | _ => none

/-- The per-key conversion of gateway_return (client.py line 163):
int(datadict[k]) for the two integer-typed keys, identity otherwise. -/
def retype (k : String) (v : Val) : Except PyError Val :=
  if k = "resultCode" ∨ k = "paymentStatus" then
    match pyInt v with
    | some n => .ok (Val.vInt n)
    | none => .error .valueError
  else .ok v

/-- The payload-building loop of gateway_return over a key list; a failing
int() conversion aborts the loop with its error. -/
def buildReturnPayload (keys : List String) (datadict : Payload) :
    Except PyError Payload :=
  match keys with
  | [] => .ok []
  | k :: ks =>
    match lookupVal k datadict with
    | none => buildReturnPayload ks datadict
    | some v =>
      match retype k v with
      | .error e => .error e
      | .ok v' =>
        match buildReturnPayload ks datadict with
        | .error e => .error e
        | .ok rest => .ok ((k, v') :: rest)

/-- Lean model of CsobClient.gateway_return (client.py lines 153-166): copy
the recognized keys in RESPONSE_KEYS order, re-typing resultCode and
paymentStatus through int(); then verify datadict[signature] (KeyError when
absent) over the rebuilt payload and either return it or raise
CsobVerifyError. -/
def gateway_return (hashFn : List Nat → Nat) (pubkey : RSAKey)
    (datadict : Payload) : Except PyError Payload :=
  match buildReturnPayload RESPONSE_KEYS datadict with
  | .error e => .error e
  | .ok o =>
    match lookupVal "signature" datadict with
    | none => .error (.keyError "signature")
    | some sv =>
      if verify hashFn o (valToSig sv) pubkey then .ok o
      else .error .csobVerifyGatewayReturn

/-! Supporting lemmas. -/

theorem inEmptyValues_iff (v : Val) : inEmptyValues v = true ↔ v ∈ EMPTY_VALUES := by
  cases v <;> simp [inEmptyValues, EMPTY_VALUES, List.isEmpty_iff]

theorem lookupVal_eq_none (k : String) (d : Payload) :
    lookupVal k d = none ↔ ∀ kv ∈ d, kv.1 ≠ k := by
  induction d with
  | nil => simp [lookupVal]
  | cons kv rest ih =>
    by_cases h : kv.1 = k <;> simp [lookupVal, h, ih]

theorem lookupVal_mem {k : String} {d : Payload} {v : Val}
    (h : lookupVal k d = some v) : (k, v) ∈ d := by
  induction d with
  | nil => simp [lookupVal] at h
  | cons kv rest ih =>
    obtain ⟨k0, v0⟩ := kv
    rw [lookupVal] at h
    by_cases hk : k0 = k
    · subst hk
      rw [if_pos rfl, Option.some.injEq] at h
      rw [← h]
      exact List.mem_cons_self _ _
    · rw [if_neg hk] at h
      exact List.mem_cons_of_mem _ (ih h)

theorem lookupVal_of_mem_nodup {k : String} {d : Payload} {v v' : Val}
    (hnd : (d.map Prod.fst).Nodup) (hl : lookupVal k d = some v)
    (hm : (k, v') ∈ d) : v' = v := by
  induction d with
  | nil => simp at hm
  | cons kv rest ih =>
    obtain ⟨k0, v0⟩ := kv
    simp only [List.map_cons, List.nodup_cons] at hnd
    rw [lookupVal] at hl
    rcases List.mem_cons.mp hm with hm | hm
    · rw [Prod.mk.injEq] at hm
      obtain ⟨h1, h2⟩ := hm
      subst h1
      rw [if_pos rfl, Option.some.injEq] at hl
      rw [h2]
      exact hl
    · have hk : k0 ≠ k := by
        intro he
        apply hnd.1
        rw [he]
        exact List.mem_map.mpr ⟨(k, v'), hm, rfl⟩
      rw [if_neg hk] at hl
      exact ih hnd.2 hl hm

theorem odInsert_of_not_mem {d : Payload} {k : String} (v : Val)
    (h : k ∉ d.map Prod.fst) : odInsert d k v = d ++ [(k, v)] := by
  have hany : d.any (fun kv => kv.1 == k) = false := by
    rw [List.any_eq_false]
    intro kv hkv
    simp only [beq_iff_eq]
    intro he
    exact h (List.mem_map.mpr ⟨kv, hkv, he⟩)
  simp [odInsert, hany]

theorem odFromPairs_foldl (pairs acc : Payload)
    (h : ((acc ++ pairs).map Prod.fst).Nodup) :
    pairs.foldl (fun d kv => odInsert d kv.1 kv.2) acc = acc ++ pairs := by
  induction pairs generalizing acc with
  | nil => simp
  | cons kv rest ih =>
    have hnot : kv.1 ∉ acc.map Prod.fst := by
      simp only [List.map_append, List.map_cons] at h
      intro hmem
      have := (List.nodup_append.mp h).2.2
      exact this hmem (List.mem_cons_self _ _)
    rw [List.foldl_cons, odInsert_of_not_mem kv.2 hnot]
    have harr : acc ++ kv :: rest = (acc ++ [kv]) ++ rest := by simp
    rw [ih (acc ++ [(kv.1, kv.2)]) (by rw [← harr]; simpa using h)]
    simp

theorem odFromPairs_eq_self (pairs : Payload)
    (h : (pairs.map Prod.fst).Nodup) : odFromPairs pairs = pairs := by
  have := odFromPairs_foldl pairs [] (by simpa using h)
  simpa [odFromPairs] using this

theorem pickKeys_map_fst (keys : List String) (data : Payload) :
    (pickKeys keys data).map Prod.fst =
      keys.filter (fun k => (lookupVal k data).isSome) := by
  induction keys with
  | nil => rfl
  | cons k ks ih =>
    rw [pickKeys, List.filterMap_cons, List.filter_cons]
    cases h : lookupVal k data with
    | none =>
      simp only [h, Option.map_none', Option.isSome_none, Bool.false_eq_true, if_false]
      exact ih
    | some v =>
      simp only [h, Option.map_some', Option.isSome_some, if_true, List.map_cons]
      rw [pickKeys] at ih
      rw [ih]

theorem pickKeys_mem {keys : List String} {data : Payload} {kv : String × Val}
    (h : kv ∈ pickKeys keys data) :
    kv.1 ∈ keys ∧ lookupVal kv.1 data = some kv.2 := by
  rw [pickKeys, List.mem_filterMap] at h
  obtain ⟨k, hk, hmap⟩ := h
  rw [Option.map_eq_some'] at hmap
  obtain ⟨v, hv, hkv⟩ := hmap
  rw [← hkv]
  exact ⟨hk, hv⟩

/-! Concrete material shared by witnesses and counterexamples: a toy
digest-encode function and a small valid RSA key (n = 33, e = 3, d = 7,
so that exponent 21 is 1 modulo lambda(33) = 10). -/

/-- A concrete digest-encode function whose values stay below 33. -/
def he33 : List Nat → Nat := fun l => (l.foldl (fun a b => a + b) 0) % 33

/-- A concrete RSA key usable as both halves of a valid key pair. -/
def key33 : RSAKey := ⟨33, 3, 7⟩

/-- A concrete request payload. -/
def payloadW : Payload :=
  [("merchantId", Val.vStr "MERCHANT"), ("dttm", Val.vStr "20230101120000")]

/-! Claim C1. -/

/-- C1: for every payload and every valid RSA key pair, verification of the
signature produced by sign over the same payload succeeds (given that the
encoded digest lies below the modulus, which the PKCS#1 v1.5 encoding
guarantees by construction). -/
theorem sign_then_verify_ok (hashFn : List Nat → Nat) (payload : Payload)
    (priv pub : RSAKey) (hkey : ValidKeyPair priv pub)
    (hmsg : hashFn (mk_msg_for_sign payload) < priv.n) :
    verify hashFn payload (sign hashFn payload priv) pub = true := by
  obtain ⟨hn, hrt⟩ := hkey
  unfold verify sign
  rw [hrt _ hmsg]
  exact beq_self_eq_true _

/-- Witness for C1 at the toy digest and key. -/
theorem sign_then_verify_ok_witness :
    verify he33 payloadW (sign he33 payloadW key33) key33 = true :=
  sign_then_verify_ok he33 payloadW key33 key33 ⟨rfl, by decide⟩ (by decide)

/-! Claim C3. -/

/-- A payload whose single value embeds the join separator. -/
def payloadCollA : Payload := [("a", Val.vStr "x|y")]

/-- A different payload with the same canonical message as payloadCollA. -/
def payloadCollB : Payload := [("a", Val.vStr "x"), ("b", Val.vStr "y")]

/-- C3 counterexample: two distinct payloads can share one canonical message
(a field value containing the pipe separator collides with two separate
fields), so a signature valid for the first also verifies against the
second. -/
theorem distinct_payloads_share_signature :
    payloadCollA ≠ payloadCollB ∧
    verify he33 payloadCollA (sign he33 payloadCollA key33) key33 = true ∧
    verify he33 payloadCollB (sign he33 payloadCollA key33) key33 = true := by
  refine ⟨?_, by decide, by decide⟩
  intro h
  exact absurd (congrArg List.length h) (by decide)

/-- C3 amended: a signature valid for P is rejected against exactly those
payloads whose encoded canonical-message digest differs from that of P; in
particular reordering two fields with distinct stringified values changes
the canonical message.  Payloads with equal canonical messages (or digest
collisions) accept the same signatures. -/
theorem verify_fails_on_digest_mismatch :
    (∀ (hashFn : List Nat → Nat) (p p' : Payload) (s : Nat) (pub : RSAKey),
       verify hashFn p s pub = true →
       hashFn (mk_msg_for_sign p') ≠ hashFn (mk_msg_for_sign p) →
       verify hashFn p' s pub = false) ∧
    mk_msg_for_sign [("a", Val.vStr "1"), ("b", Val.vStr "2")] ≠
      mk_msg_for_sign [("b", Val.vStr "2"), ("a", Val.vStr "1")] := by
  constructor
  · intro hashFn p p' s pub hv hd
    unfold verify at hv ⊢
    rw [beq_iff_eq] at hv
    rw [beq_eq_false_iff_ne, hv]
    exact fun he => hd he.symm
  · decide

/-- Witness for the amended C3. -/
theorem verify_fails_on_digest_mismatch_witness :
    verify he33 [("a", Val.vStr "2")] (sign he33 [("a", Val.vStr "1")] key33) key33 = false :=
  verify_fails_on_digest_mismatch.1 he33 [("a", Val.vStr "1")] [("a", Val.vStr "2")]
    (sign he33 [("a", Val.vStr "1")] key33) key33 (by decide) (by decide)

/-! Claim C8. -/

/-- C8 counterexample: the canonical message builder does not filter the
whole empty-value set; a field holding the empty string still contributes a
segment, so the message differs from the one built after that filtering. -/
theorem empty_string_field_contributes :
    mk_msg_for_sign [("a", Val.vStr "x"), ("b", Val.vStr "")] ≠
      mk_msg_for_sign (([("a", Val.vStr "x"), ("b", Val.vStr "")] : Payload).filter
        (fun kv => !(inEmptyValues kv.2))) := by
  decide

/-- C8 amended: the builder defensively drops only None-valued fields (the
dict comprehension tests v is not None); fields holding the other empty
values survive and contribute a segment: an empty string contributes an
empty segment and an empty list the segment []. -/
theorem builder_filters_only_none :
    (∀ payload : Payload,
       mk_msg_for_sign payload =
         mk_msg_for_sign (payload.filter (fun kv => !(isNone kv.2)))) ∧
    mk_msg_for_sign [("a", Val.vStr "x"), ("b", Val.vStr "")] = utf8Encode "x|" ∧
    mk_msg_for_sign [("a", Val.vStr "x"), ("b", Val.vList [])] = utf8Encode "x|[]" := by
  refine ⟨?_, by decide, by decide⟩
  intro payload
  simp only [mk_msg_for_sign, List.filter_filter, Bool.and_self]

/-! Claim C5. -/

/-- C5 counterexample: when the input pairs already contain a field named
signature, OrderedDict assignment overwrites it in place, so the result is
not the filtered pairs followed by an appended signature field (and the
message signed included the original signature-named field). -/
theorem mk_payload_signature_collision :
    mk_payload he33 key33 [("signature", Val.vStr "x")] ≠
      ([("signature", Val.vStr "x")] : Payload).filter (fun kv => !(inEmptyValues kv.2)) ++
        [("signature", Val.vStr (sigToText (sign he33
          (([("signature", Val.vStr "x")] : Payload).filter
            (fun kv => !(inEmptyValues kv.2))) key33)))] := by
  intro h
  exact absurd (congrArg List.length h) (by decide)

/-- C5 amended: for input pairs with pairwise distinct field names none of
which is signature, the signed payload is exactly the pairs surviving the
empty-value filter, in order, with the signature field appended last and
computed over exactly those filtered fields. -/
theorem mk_payload_appends_signature (hashFn : List Nat → Nat) (key : RSAKey)
    (pairs : List (String × Val))
    (hnd : (pairs.map Prod.fst).Nodup)
    (hsig : "signature" ∉ pairs.map Prod.fst) :
    mk_payload hashFn key pairs =
      pairs.filter (fun kv => !(inEmptyValues kv.2)) ++
        [("signature", Val.vStr (sigToText (sign hashFn
          (pairs.filter (fun kv => !(inEmptyValues kv.2))) key)))] := by
  have hsub : List.Sublist
      ((pairs.filter (fun kv => !(inEmptyValues kv.2))).map Prod.fst)
      (pairs.map Prod.fst) := (List.filter_sublist _).map _
  have hndf : ((pairs.filter (fun kv => !(inEmptyValues kv.2))).map Prod.fst).Nodup :=
    hnd.sublist hsub
  have hsigf : "signature" ∉
      (pairs.filter (fun kv => !(inEmptyValues kv.2))).map Prod.fst :=
    fun hm => hsig (hsub.mem hm)
  rw [mk_payload, odFromPairs_eq_self _ hndf, odInsert_of_not_mem _ hsigf]

/-- Witness for the amended C5. -/
theorem mk_payload_appends_signature_witness :
    mk_payload he33 key33 [("a", Val.vStr "x"), ("b", Val.vNone)] =
      ([("a", Val.vStr "x"), ("b", Val.vNone)] : Payload).filter
          (fun kv => !(inEmptyValues kv.2)) ++
        [("signature", Val.vStr (sigToText (sign he33
          (([("a", Val.vStr "x"), ("b", Val.vNone)] : Payload).filter
            (fun kv => !(inEmptyValues kv.2))) key33)))] :=
  mk_payload_appends_signature he33 key33 _ (by decide) (by decide)

/-! Claim C4. -/

/-- Claim C4 reading of one segment of the canonical message, following the
words of the spec: the natural string form of the value, except that a cart
field whose value lies outside the empty-value set contributes the joined
flattened cart values. -/
def canonicalSegment (kv : String × Val) : String :=
  if kv.1 = "cart" then
    match kv.2 with
    | Val.vList items =>
        if inEmptyValues (Val.vList items) then str_or_jsbool (Val.vList items)
        else cartSegment items
    | v => str_or_jsbool v
  else str_or_jsbool kv.2

/-- Claim C4 reading of the whole canonical message, following the words of
the spec: UTF-8 encoding of the pipe-join of the segments in field order. -/
def canonicalMessageSpec (payload : Payload) : List Nat :=
  utf8Encode (String.intercalate "|" (payload.map canonicalSegment))

/-- A concrete payload with a two-item cart. -/
def payloadCartW : Payload :=
  [("merchantId", Val.vStr "M"),
   ("cart", Val.vList
     [[("name", Val.vStr "A"), ("quantity", Val.vInt 1), ("amount", Val.vInt 2)],
      [("name", Val.vStr "B"), ("quantity", Val.vInt 3), ("amount", Val.vInt 4)]]),
   ("description", Val.vStr "D")]

/-- C4: over payloads as the data model defines them (values already
None-free, field names unique as in a dict), the canonical message built by
the code is exactly the message the spec describes: pipe-join of stringified top-level
values in field order with a present non-empty cart first replaced by the
join of the flattened cart values; and a two-item three-field cart
contributes the single segment joining all six cart values in
item-then-field order. -/
theorem canonical_message_matches_spec (payload : Payload)
    (hnone : ∀ kv ∈ payload, isNone kv.2 = false)
    (hnd : (payload.map Prod.fst).Nodup) :
    mk_msg_for_sign payload = canonicalMessageSpec payload ∧
    (∀ (n1 n2 n3 m1 m2 m3 : String) (v1 v2 v3 w1 w2 w3 : Val),
      cartSegment [[(n1, v1), (n2, v2), (n3, v3)], [(m1, w1), (m2, w2), (m3, w3)]] =
        String.intercalate "|" [str_or_jsbool v1, str_or_jsbool v2, str_or_jsbool v3,
          str_or_jsbool w1, str_or_jsbool w2, str_or_jsbool w3]) := by
  constructor
  · have hfil : payload.filter (fun kv => !(isNone kv.2)) = payload := by
      rw [List.filter_eq_self]
      intro kv hkv
      rw [hnone kv hkv]
      rfl
    rw [mk_msg_for_sign, canonicalMessageSpec]
    simp only [hfil]
    cases hc : lookupVal "cart" payload with
    | none =>
      have hmap : payload.map (fun kv : String × Val => str_or_jsbool kv.2) =
          payload.map canonicalSegment := by
        apply List.map_congr_left
        intro kv hkv
        have hk : kv.1 ≠ "cart" := (lookupVal_eq_none _ _).mp hc kv hkv
        rw [canonicalSegment, if_neg hk]
      rw [hmap]
    | some t =>
      cases t with
      | vList items =>
        cases hemp : inEmptyValues (Val.vList items) with
        | true =>
          simp only [hemp, if_true]
          have hmap : payload.map (fun kv : String × Val => str_or_jsbool kv.2) =
              payload.map canonicalSegment := by
            apply List.map_congr_left
            intro kv hkv
            rw [canonicalSegment]
            by_cases hk : kv.1 = "cart"
            · have hv : kv.2 = Val.vList items := by
                apply lookupVal_of_mem_nodup hnd hc
                rw [← hk]
                exact hkv
              rw [if_pos hk, hv]
              simp [hemp]
            · rw [if_neg hk]
          rw [hmap]
        | false =>
          simp only [hemp, Bool.false_eq_true, if_false, List.map_map]
          have hmap : payload.map ((fun kv : String × Val => str_or_jsbool kv.2) ∘
              (fun kv : String × Val =>
                if kv.1 = "cart" then ("cart", Val.vStr (cartSegment items)) else kv)) =
              payload.map canonicalSegment := by
            apply List.map_congr_left
            intro kv hkv
            simp only [Function.comp_apply]
            rw [canonicalSegment]
            by_cases hk : kv.1 = "cart"
            · have hv : kv.2 = Val.vList items := by
                apply lookupVal_of_mem_nodup hnd hc
                rw [← hk]
                exact hkv
              rw [if_pos hk, if_pos hk, hv]
              simp [hemp, str_or_jsbool, pyStr]
            · rw [if_neg hk, if_neg hk]
          rw [hmap]
      | vNone =>
        have hmap : payload.map (fun kv : String × Val => str_or_jsbool kv.2) =
            payload.map canonicalSegment := by
          apply List.map_congr_left
          intro kv hkv
          rw [canonicalSegment]
          by_cases hk : kv.1 = "cart"
          · have hv : kv.2 = Val.vNone := by
              apply lookupVal_of_mem_nodup hnd hc
              rw [← hk]
              exact hkv
            rw [if_pos hk, hv]
          · rw [if_neg hk]
        rw [hmap]
      | vStr s =>
        have hmap : payload.map (fun kv : String × Val => str_or_jsbool kv.2) =
            payload.map canonicalSegment := by
          apply List.map_congr_left
          intro kv hkv
          rw [canonicalSegment]
          by_cases hk : kv.1 = "cart"
          · have hv : kv.2 = Val.vStr s := by
              apply lookupVal_of_mem_nodup hnd hc
              rw [← hk]
              exact hkv
            rw [if_pos hk, hv]
          · rw [if_neg hk]
        rw [hmap]
      | vInt n =>
        have hmap : payload.map (fun kv : String × Val => str_or_jsbool kv.2) =
            payload.map canonicalSegment := by
          apply List.map_congr_left
          intro kv hkv
          rw [canonicalSegment]
          by_cases hk : kv.1 = "cart"
          · have hv : kv.2 = Val.vInt n := by
              apply lookupVal_of_mem_nodup hnd hc
              rw [← hk]
              exact hkv
            rw [if_pos hk, hv]
          · rw [if_neg hk]
        rw [hmap]
      | vBool b =>
        have hmap : payload.map (fun kv : String × Val => str_or_jsbool kv.2) =
            payload.map canonicalSegment := by
          apply List.map_congr_left
          intro kv hkv
          rw [canonicalSegment]
          by_cases hk : kv.1 = "cart"
          · have hv : kv.2 = Val.vBool b := by
              apply lookupVal_of_mem_nodup hnd hc
              rw [← hk]
              exact hkv
            rw [if_pos hk, hv]
          · rw [if_neg hk]
        rw [hmap]
  · intro n1 n2 n3 m1 m2 m3 v1 v2 v3 w1 w2 w3
    rfl

/-- Witness for C4 at a concrete two-item-cart payload. -/
theorem canonical_message_matches_spec_witness :
    mk_msg_for_sign payloadCartW = canonicalMessageSpec payloadCartW ∧
    cartSegment [[("name", Val.vStr "A"), ("quantity", Val.vInt 1), ("amount", Val.vInt 2)],
                 [("name", Val.vStr "B"), ("quantity", Val.vInt 3), ("amount", Val.vInt 4)]] =
      String.intercalate "|" [str_or_jsbool (Val.vStr "A"), str_or_jsbool (Val.vInt 1),
        str_or_jsbool (Val.vInt 2), str_or_jsbool (Val.vStr "B"), str_or_jsbool (Val.vInt 3),
        str_or_jsbool (Val.vInt 4)] := by
  obtain h := canonical_message_matches_spec payloadCartW (by decide) (by decide)
  exact ⟨h.1, h.2 _ _ _ _ _ _ _ _ _ _ _ _⟩

/-! Claim C2. -/

/-- The declared kind of an extension entry, as the loop tests it. -/
def extKind (one : Payload) : Bool :=
  isMaskKind ((lookupVal "extension" one).getD Val.vNone)

/-- The fixed 5-field ordered sub-object built for a recognized entry. -/
def extSubObject (one : Payload) : Payload := pickKeys maskclnrp_keys one

/-- The embedded signature of an extension entry, decoded. -/
def extSig (one : Payload) : Nat :=
  valToSig ((lookupVal "signature" one).getD Val.vNone)

/-- An extension entry that carries the keys the loop reads: an extension
kind and, when the kind is recognized, a signature. -/
abbrev ExtEntryWF (one : Payload) : Prop :=
  (lookupVal "extension" one).isSome = true ∧
  (extKind one = true → (lookupVal "signature" one).isSome = true)

theorem processExtensions_ok (hashFn : List Nat → Nat) (key : RSAKey)
    (entries : List Payload)
    (hwf : ∀ one ∈ entries, ExtEntryWF one)
    (hok : ∀ one ∈ entries, extKind one = true →
      verify hashFn (extSubObject one) (extSig one) key = true) :
    processExtensions hashFn key entries =
      .ok ((entries.filter extKind).map extSubObject) := by
  induction entries with
  | nil => rfl
  | cons one rest ih =>
    obtain ⟨hext, hsig⟩ := hwf one (List.mem_cons_self _ _)
    obtain ⟨t, ht⟩ := Option.isSome_iff_exists.mp hext
    have hkind : extKind one = isMaskKind t := by rw [extKind, ht]; rfl
    rw [processExtensions, ht]
    cases hk : isMaskKind t with
    | false =>
      simp only [hk, Bool.false_eq_true, if_false]
      rw [List.filter_cons_of_neg (by rw [hkind, hk]; simp)]
      exact ih (fun x hx => hwf x (List.mem_cons_of_mem _ hx))
        (fun x hx => hok x (List.mem_cons_of_mem _ hx))
    | true =>
      simp only [hk, if_true]
      have hkone : extKind one = true := by rw [hkind, hk]
      obtain ⟨sv, hsv⟩ := Option.isSome_iff_exists.mp (hsig hkone)
      rw [hsv]
      have hv := hok one (List.mem_cons_self _ _) hkone
      rw [extSubObject, extSig, hsv] at hv
      simp only [Option.getD_some] at hv
      simp only [hv, if_true]
      rw [List.filter_cons_of_pos (by rw [hkone])]
      rw [ih (fun x hx => hwf x (List.mem_cons_of_mem _ hx))
        (fun x hx => hok x (List.mem_cons_of_mem _ hx))]
      rfl

theorem processExtensions_err (hashFn : List Nat → Nat) (key : RSAKey)
    (entries : List Payload)
    (hwf : ∀ one ∈ entries, ExtEntryWF one)
    (hbad : ∃ one ∈ entries, extKind one = true ∧
      verify hashFn (extSubObject one) (extSig one) key = false) :
    processExtensions hashFn key entries = .error PyError.csobVerifyExtension := by
  induction entries with
  | nil => simp at hbad
  | cons one rest ih =>
    obtain ⟨hext, hsig⟩ := hwf one (List.mem_cons_self _ _)
    obtain ⟨t, ht⟩ := Option.isSome_iff_exists.mp hext
    have hkind : extKind one = isMaskKind t := by rw [extKind, ht]; rfl
    rw [processExtensions, ht]
    cases hk : isMaskKind t with
    | false =>
      simp only [hk, Bool.false_eq_true, if_false]
      apply ih (fun x hx => hwf x (List.mem_cons_of_mem _ hx))
      obtain ⟨x, hx, hkx, hvx⟩ := hbad
      rcases List.mem_cons.mp hx with hx | hx
      · exfalso
        rw [hx, hkind, hk] at hkx
        exact Bool.false_ne_true hkx
      · exact ⟨x, hx, hkx, hvx⟩
    | true =>
      simp only [hk, if_true]
      have hkone : extKind one = true := by rw [hkind, hk]
      obtain ⟨sv, hsv⟩ := Option.isSome_iff_exists.mp (hsig hkone)
      rw [hsv]
      cases hv : verify hashFn (pickKeys maskclnrp_keys one) (valToSig sv) key with
      | false =>
        simp only [hv, Bool.false_eq_true, if_false]
      | true =>
        simp only [hv, if_true]
        have hbad' : ∃ x ∈ rest, extKind x = true ∧
            verify hashFn (extSubObject x) (extSig x) key = false := by
          obtain ⟨x, hx, hkx, hvx⟩ := hbad
          rcases List.mem_cons.mp hx with hx | hx
          · exfalso
            rw [hx] at hvx
            rw [extSubObject, extSig, hsv] at hvx
            simp only [Option.getD_some] at hvx
            rw [hv] at hvx
            exact Bool.noConfusion hvx
          · exact ⟨x, hx, hkx, hvx⟩
        rw [ih (fun x hx => hwf x (List.mem_cons_of_mem _ hx)) hbad']
        rfl

/-- Evaluation of validate_response once the stages before the extension
loop have all succeeded. -/
theorem validate_response_reaches_extensions (hashFn : List Nat → Nat)
    (key : RSAKey) (response : HttpResponse) (body : Payload) (sigVal : Val)
    (entries : List Payload)
    (hstatus : response.statusError = false)
    (hbody : response.jsonBody = some body)
    (hsig : lookupVal "signature" body = some sigVal)
    (hverify : verify hashFn (pickKeys RESPONSE_KEYS (eraseKey "signature" body))
      (valToSig sigVal) key = true)
    (hext : lookupVal "extensions" (eraseKey "signature" body) =
      some (Val.vList entries)) :
    validate_response hashFn response key =
      (processExtensions hashFn key entries).map
        (fun exts => ⟨pickKeys RESPONSE_KEYS (eraseKey "signature" body), exts⟩) := by
  rw [validate_response]
  simp only [hstatus, Bool.false_eq_true, if_false, hbody, hsig, hverify, if_true, hext]

/-- C2: once the primary verification has succeeded and the body carries an
extensions list whose entries hold the keys the loop reads, then: if every
recognized entry verifies, validation succeeds and returns exactly the
5-field sub-objects of the recognized entries in input order (unrecognized
entries ignored); and if any recognized entry fails its own verification,
the whole validation fails with the masked-card CsobVerifyError, so no
partially trusted result is returned. -/
theorem extension_isolation (hashFn : List Nat → Nat) (key : RSAKey)
    (response : HttpResponse) (body : Payload) (sigVal : Val)
    (entries : List Payload)
    (hstatus : response.statusError = false)
    (hbody : response.jsonBody = some body)
    (hsig : lookupVal "signature" body = some sigVal)
    (hverify : verify hashFn (pickKeys RESPONSE_KEYS (eraseKey "signature" body))
      (valToSig sigVal) key = true)
    (hext : lookupVal "extensions" (eraseKey "signature" body) =
      some (Val.vList entries))
    (hwf : ∀ one ∈ entries, ExtEntryWF one) :
    ((∀ one ∈ entries, extKind one = true →
        verify hashFn (extSubObject one) (extSig one) key = true) →
      validate_response hashFn response key =
        .ok ⟨pickKeys RESPONSE_KEYS (eraseKey "signature" body),
             (entries.filter extKind).map extSubObject⟩) ∧
    ((∃ one ∈ entries, extKind one = true ∧
        verify hashFn (extSubObject one) (extSig one) key = false) →
      validate_response hashFn response key = .error PyError.csobVerifyExtension) := by
  constructor
  · intro hall
    rw [validate_response_reaches_extensions hashFn key response body sigVal entries
      hstatus hbody hsig hverify hext,
      processExtensions_ok hashFn key entries hwf hall]
    rfl
  · intro hbad
    rw [validate_response_reaches_extensions hashFn key response body sigVal entries
      hstatus hbody hsig hverify hext,
      processExtensions_err hashFn key entries hwf hbad]
    rfl

/-- The 5-field sub-object of the concrete witness extension entry. -/
def extOW : Payload :=
  [("extension", Val.vStr "maskCln"), ("dttm", Val.vStr "1"),
   ("maskedCln", Val.vStr "2"), ("expiration", Val.vStr "3"),
   ("longMaskedCln", Val.vStr "4")]

/-- A recognized extension entry with a valid embedded signature. -/
def entryW : Payload :=
  extOW ++ [("signature", Val.vStr (sigToText (sign he33 extOW key33)))]

/-- An extension entry of unrecognized kind. -/
def entryOtherW : Payload := [("extension", Val.vStr "other")]

/-- The recognized fields of the concrete witness response body. -/
def respPayloadW : Payload := [("payId", Val.vStr "1")]

/-- A concrete response body: signed recognized fields plus two extensions,
one recognized and valid, one unrecognized. -/
def bodyW : Payload :=
  [("payId", Val.vStr "1"),
   ("signature", Val.vStr (sigToText (sign he33 respPayloadW key33))),
   ("extensions", Val.vList [entryW, entryOtherW])]

/-- The concrete witness response. -/
def respW : HttpResponse := ⟨false, some bodyW⟩

/-- Witness for C2 at the concrete response. -/
theorem extension_isolation_witness :
    validate_response he33 respW key33 =
      .ok ⟨pickKeys RESPONSE_KEYS (eraseKey "signature" bodyW),
           (([entryW, entryOtherW] : List Payload).filter extKind).map extSubObject⟩ :=
  (extension_isolation he33 key33 respW bodyW
    (Val.vStr (sigToText (sign he33 respPayloadW key33)))
    [entryW, entryOtherW] rfl rfl rfl (by decide) rfl (by decide)).1 (by decide)

/-! Claim C6. -/

/-- C6: response validation pops the signature field and builds the verified
payload in the fixed RESPONSE_KEYS order (so its key sequence is the
recognized-key list filtered to the present keys, independent of the order
the server transmitted), copying only recognized keys and dropping the rest;
and when the popped signature fails to verify over those ordered fields the
validation returns the CsobVerifyError for the response and no payload. -/
theorem response_extraction (hashFn : List Nat → Nat) (key : RSAKey)
    (response : HttpResponse) (body : Payload) (sigVal : Val)
    (hstatus : response.statusError = false)
    (hbody : response.jsonBody = some body)
    (hsigl : lookupVal "signature" body = some sigVal) :
    ((pickKeys RESPONSE_KEYS (eraseKey "signature" body)).map Prod.fst =
      RESPONSE_KEYS.filter
        (fun k => (lookupVal k (eraseKey "signature" body)).isSome)) ∧
    (∀ kv ∈ pickKeys RESPONSE_KEYS (eraseKey "signature" body),
      kv.1 ∈ RESPONSE_KEYS ∧
        lookupVal kv.1 (eraseKey "signature" body) = some kv.2) ∧
    (verify hashFn (pickKeys RESPONSE_KEYS (eraseKey "signature" body))
        (valToSig sigVal) key = false →
      validate_response hashFn response key = .error PyError.csobVerifyResponse) := by
  refine ⟨pickKeys_map_fst _ _, fun kv hkv => pickKeys_mem hkv, ?_⟩
  intro hv
  rw [validate_response]
  simp only [hstatus, Bool.false_eq_true, if_false, hbody, hsigl, hv]

/-- A concrete body whose signature does not verify. -/
def bodyBadW : Payload := [("payId", Val.vStr "1"), ("signature", Val.vStr "0")]

/-- Witness for C6 at the concrete failing body. -/
theorem response_extraction_witness :
    validate_response he33 ⟨false, some bodyBadW⟩ key33 =
      .error PyError.csobVerifyResponse :=
  (response_extraction he33 key33 ⟨false, some bodyBadW⟩ bodyBadW (Val.vStr "0")
    rfl rfl rfl).2.2 (by decide)

/-! Claim C7. -/

/-- C7: before any signature work, an HTTP error status makes validation
fail with the CsobBaseException wrapper, a body that does not decode as JSON
makes it fail with CsobJSONDecodeError, and a connection-level transport
failure surfaces from the adapter as the CsobBaseException wrapper; no other
recovery happens at this layer. -/
theorem transport_and_decode_errors :
    (∀ (hashFn : List Nat → Nat) (response : HttpResponse) (key : RSAKey),
       response.statusError = true →
       validate_response hashFn response key = .error PyError.csobBase) ∧
    (∀ (hashFn : List Nat → Nat) (response : HttpResponse) (key : RSAKey),
       response.statusError = false → response.jsonBody = none →
       validate_response hashFn response key = .error PyError.csobJSONDecode) ∧
    adapter_send (.error ()) = .error PyError.csobBase := by
  refine ⟨?_, ?_, rfl⟩
  · intro hashFn response key h
    rw [validate_response]
    simp only [h, if_true]
  · intro hashFn response key h hb
    rw [validate_response]
    simp only [h, Bool.false_eq_true, if_false, hb]

/-- Witness for C7 at concrete failing responses. -/
theorem transport_and_decode_errors_witness :
    validate_response he33 ⟨true, none⟩ key33 = .error PyError.csobBase ∧
    validate_response he33 ⟨false, none⟩ key33 = .error PyError.csobJSONDecode :=
  ⟨transport_and_decode_errors.1 he33 ⟨true, none⟩ key33 rfl,
   transport_and_decode_errors.2.1 he33 ⟨false, none⟩ key33 rfl rfl⟩

/-! Claim C10. -/

/-- C10: a decoded body with no top-level signature key makes validation
fail with a plain KeyError rather than any of the typed errors, and a
recognized-kind extension entry with no signature key does the same inside
the extension loop. -/
theorem missing_signature_raises_keyerror :
    (∀ (hashFn : List Nat → Nat) (response : HttpResponse) (key : RSAKey)
       (body : Payload),
       response.statusError = false → response.jsonBody = some body →
       lookupVal "signature" body = none →
       validate_response hashFn response key = .error (PyError.keyError "signature")) ∧
    (∀ (hashFn : List Nat → Nat) (key : RSAKey) (one : Payload)
       (rest : List Payload) (t : Val),
       lookupVal "extension" one = some t → isMaskKind t = true →
       lookupVal "signature" one = none →
       processExtensions hashFn key (one :: rest) =
         .error (PyError.keyError "signature")) := by
  constructor
  · intro hashFn response key body h hb hs
    rw [validate_response]
    simp only [h, Bool.false_eq_true, if_false, hb, hs]
  · intro hashFn key one rest t he hm hs
    rw [processExtensions, he]
    simp only [hm, if_true, hs]

/-- Witness for C10 at concrete signatureless inputs. -/
theorem missing_signature_raises_keyerror_witness :
    validate_response he33 ⟨false, some [("payId", Val.vStr "1")]⟩ key33 =
      .error (PyError.keyError "signature") ∧
    processExtensions he33 key33 [[("extension", Val.vStr "maskCln")]] =
      .error (PyError.keyError "signature") :=
  ⟨missing_signature_raises_keyerror.1 he33 ⟨false, some [("payId", Val.vStr "1")]⟩
     key33 [("payId", Val.vStr "1")] rfl rfl rfl,
   missing_signature_raises_keyerror.2 he33 key33 [("extension", Val.vStr "maskCln")]
     [] (Val.vStr "maskCln") rfl (by decide) rfl⟩

/-! Claim C9. -/

theorem buildReturnPayload_ok_fst {keys : List String} {datadict o : Payload}
    (h : buildReturnPayload keys datadict = .ok o) :
    o.map Prod.fst = keys.filter (fun k => (lookupVal k datadict).isSome) := by
  induction keys generalizing o with
  | nil =>
    rw [buildReturnPayload] at h
    obtain rfl : ([] : Payload) = o := by injection h
    rfl
  | cons k ks ih =>
    rw [buildReturnPayload] at h
    split at h
    next hl =>
      rw [List.filter_cons_of_neg (by simp [hl])]
      exact ih h
    next v hl =>
      split at h
      next e hr => exact absurd h (by simp)
      next v' hr =>
        split at h
        next e hb => exact absurd h (by simp)
        next rest hb =>
          obtain rfl : ((k, v') :: rest : Payload) = o := by injection h
          rw [List.filter_cons_of_pos (by simp [hl])]
          rw [List.map_cons, ih hb]

theorem buildReturnPayload_ok_char {keys : List String} {datadict o : Payload}
    (h : buildReturnPayload keys datadict = .ok o) :
    o = keys.filterMap (fun k => (lookupVal k datadict).bind
      (fun v => (retype k v).toOption.map (fun vr => (k, vr)))) := by
  induction keys generalizing o with
  | nil =>
    rw [buildReturnPayload] at h
    obtain rfl : ([] : Payload) = o := by injection h
    rfl
  | cons k ks ih =>
    rw [buildReturnPayload] at h
    rw [List.filterMap_cons]
    split at h
    next hl =>
      rw [hl]
      simp only [Option.none_bind]
      exact ih h
    next v hl =>
      rw [hl]
      simp only [Option.some_bind]
      split at h
      next e hr => exact absurd h (by simp)
      next vr hr =>
        split at h
        next e hb => exact absurd h (by simp)
        next rest hb =>
          obtain rfl : ((k, vr) :: rest : Payload) = o := by injection h
          rw [hr]
          exact congrArg _ (ih hb)

/-- C9: when gateway_return succeeds, it returns exactly the recognized
fields (keys in RESPONSE_KEYS order, restricted to those present), every
resultCode or paymentStatus value it returns is an integer, and a numeric
wire string under either of those keys comes back as the parsed integer. -/
theorem gateway_return_retypes (hashFn : List Nat → Nat) (pubkey : RSAKey)
    (datadict o : Payload) (sv : Val)
    (hbuild : buildReturnPayload RESPONSE_KEYS datadict = .ok o)
    (hsigl : lookupVal "signature" datadict = some sv)
    (hverify : verify hashFn o (valToSig sv) pubkey = true) :
    gateway_return hashFn pubkey datadict = .ok o ∧
    o.map Prod.fst = RESPONSE_KEYS.filter (fun k => (lookupVal k datadict).isSome) ∧
    (∀ kv ∈ o, kv.1 = "resultCode" ∨ kv.1 = "paymentStatus" →
      ∃ i, kv.2 = Val.vInt i) ∧
    (∀ s i, lookupVal "resultCode" datadict = some (Val.vStr s) →
      strToInt s = some i → ("resultCode", Val.vInt i) ∈ o) ∧
    (∀ s i, lookupVal "paymentStatus" datadict = some (Val.vStr s) →
      strToInt s = some i → ("paymentStatus", Val.vInt i) ∈ o) := by
  refine ⟨?_, buildReturnPayload_ok_fst hbuild, ?_, ?_, ?_⟩
  · rw [gateway_return, hbuild, hsigl]
    simp only [hverify, if_true]
  · intro kv hkv hk
    rw [buildReturnPayload_ok_char hbuild, List.mem_filterMap] at hkv
    obtain ⟨k, hkmem, heq⟩ := hkv
    rw [Option.bind_eq_some] at heq
    obtain ⟨v, hv, hmap⟩ := heq
    rw [Option.map_eq_some'] at hmap
    obtain ⟨vr, hvr, hpair⟩ := hmap
    have hk1 : k = kv.1 := by rw [← hpair]
    have hk2 : vr = kv.2 := by rw [← hpair]
    rw [hk1, retype, if_pos hk] at hvr
    cases hp : pyInt v with
    | none =>
      rw [hp] at hvr
      exact absurd hvr (by simp [Except.toOption])
    | some n =>
      rw [hp] at hvr
      simp only [Except.toOption] at hvr
      refine ⟨n, ?_⟩
      rw [← hk2, ← Option.some_inj.mp hvr]
  · intro s i hl hi
    rw [buildReturnPayload_ok_char hbuild, List.mem_filterMap]
    refine ⟨"resultCode", by decide, ?_⟩
    rw [hl]
    simp [retype, pyInt, hi, Except.toOption]
  · intro s i hl hi
    rw [buildReturnPayload_ok_char hbuild, List.mem_filterMap]
    refine ⟨"paymentStatus", by decide, ?_⟩
    rw [hl]
    simp [retype, pyInt, hi, Except.toOption]

/-- The re-typed payload the witness gateway return recovers. -/
def oW : Payload := [("resultCode", Val.vInt 110), ("paymentStatus", Val.vInt 5)]

/-- Concrete gateway-return data with numeric strings on the wire and a
signature over the re-typed fields. -/
def datadictW : Payload :=
  [("resultCode", Val.vStr "110"), ("paymentStatus", Val.vStr "5"),
   ("signature", Val.vStr (sigToText (sign he33 oW key33)))]

/-- Witness for C9 at the concrete gateway-return data. -/
theorem gateway_return_retypes_witness :
    gateway_return he33 key33 datadictW = .ok oW :=
  (gateway_return_retypes he33 key33 datadictW oW
    (Val.vStr (sigToText (sign he33 oW key33))) rfl rfl (by decide)).1

end Pycsob
